import Mathlib

/-!
Shallow embedding of the retry/mutation engine of the bigtable client
(google/cloud/bigtable/table.cc) and proofs of its specified properties.

The RPC transport is modelled as an environment: a function from attempt
number to the grpc status of that attempt (for `Apply`), or a list of
per-round outcomes (for `BulkApply`), or the list of elements the row
reader would yield (for `ReadRow`).  Policies are objects split into a
behavior record and an explicit state value, mirroring the stateful,
clonable policy classes.
-/

namespace Bigtable

/-- Mutation: a tagged operation on a single row (set-cell, delete-cell,
delete-row), per the data model of the client. -/
inductive Mutation where
  | setCell (family column : String) (timestampMicros : Int) (value : String)
  | deleteFromColumn (family column : String)
  | deleteFromRow
deriving DecidableEq, Repr

/-- SingleRowMutation: a row key plus an ordered sequence of Mutations. -/
structure SingleRowMutation where
  rowKey : String
  mutations : List Mutation
deriving DecidableEq, Repr

/-- grpc::Status as observed by the retry machinery: an integer code,
0 meaning OK (`status.ok()`). -/
structure GrpcStatus where
  code : Nat
deriving DecidableEq, Repr

/-- status.ok() -/
def GrpcStatus.isOk (s : GrpcStatus) : Bool := s.code == 0

/-- google::cloud::Status: a code plus a message. -/
structure Status where
  code : Nat
  message : String
deriving DecidableEq, Repr

/-- Status.ok() -/
def Status.isOk (s : Status) : Bool := s.code == 0

/-- The default-constructed google::cloud::Status{}, i.e. success. -/
def okStatus : Status := ⟨0, ""⟩

/-- grpc StatusCode::INTERNAL -/
def internalCode : Nat := 13

/-- grpc StatusCode::UNAVAILABLE -/
def unavailableCode : Nat := 14

/-- bigtable::internal::MakeStatusFromRpcError(code, msg): wraps a grpc
error code and a message into a google::cloud::Status. -/
def makeStatusFromRpcError (code : Nat) (msg : String) : Status := ⟨code, msg⟩

/-- RPCRetryPolicy behavior: OnFailure(status) consumes the current policy
state and the failure status, returns whether the caller may retry and the
advanced state. -/
structure RetryPolicy (ρ : Type) where
  onFailure : ρ → GrpcStatus → Bool × ρ

/-- RPCBackoffPolicy behavior: OnCompletion(status) consumes the current
state and a status, returns the delay (milliseconds) and the advanced
state. -/
structure BackoffPolicy (β : Type) where
  onCompletion : β → GrpcStatus → Nat × β

/-- The state held by a Table's impl_: the stored policy states, the
idempotent-mutation policy (a classifier over mutations), and the table
identity. -/
structure TableImpl (ρ β : Type) where
  rpcRetryPolicy : ρ
  rpcBackoffPolicy : β
  idempotentMutationPolicy : Mutation → Bool
  appProfileId : String
  tableName : String

/-- policy->clone(): a fresh, fully independent copy of the policy's
current state; the original is untouched. -/
def clonePolicy {α : Type} (p : α) : α := p

/-- btproto::MutateRowRequest after SetCommonTableOperationRequest and
SingleRowMutation::MoveTo. -/
structure MutateRowRequest where
  appProfileId : String
  tableName : String
  rowKey : String
  mutations : List Mutation
deriving DecidableEq, Repr

/-- Builds the MutateRowRequest exactly as Table::Apply does before its
loop. -/
def buildMutateRowRequest {ρ β : Type} (t : TableImpl ρ β)
    (srm : SingleRowMutation) : MutateRowRequest :=
  ⟨t.appProfileId, t.tableName, srm.rowKey, srm.mutations⟩

/-- The is_idempotent classification in Table::Apply: std::all_of over the
request's mutations under the (cloned) idempotent mutation policy. -/
def applyIsIdempotent (pol : Mutation → Bool) (request : MutateRowRequest) :
    Bool :=
  request.mutations.all pol

/-- The message attached by Table::Apply to its terminal error. -/
def applyPermanentErrorMessage : String :=
  "Permanent (or too many transient) errors in Table::Apply()"

/-- Outcome of a completed Table::Apply: the returned Status and the number
of RPC attempts issued. -/
structure ApplyOutcome where
  result : Status
  attempts : Nat
deriving DecidableEq, Repr

/-- The while(true) loop of Table::Apply.  `outcome n` is the grpc status
of the n-th RPC attempt (0-based); `n` counts attempts already issued.
Fuel bounds the number of iterations we evaluate: `none` means the loop
did not exit within the given fuel. -/
def applyLoop {ρ β : Type} (retry : RetryPolicy ρ) (backoff : BackoffPolicy β)
    (isIdem : Bool) (outcome : Nat → GrpcStatus) :
    Nat → ρ → β → Nat → Option ApplyOutcome
  | 0, _, _, _ => none
  | fuel + 1, rs, bs, n =>
    let st := outcome n
    if st.isOk then
      some ⟨okStatus, n + 1⟩
    else
      let fr := retry.onFailure rs st
      if !fr.1 || !isIdem then
        some ⟨makeStatusFromRpcError st.code applyPermanentErrorMessage, n + 1⟩
      else
        let bc := backoff.onCompletion bs st
        applyLoop retry backoff isIdem outcome fuel fr.2 bc.2 (n + 1)

/-- Result of running Table::Apply: the loop's outcome together with the
table state as it stands after the call. -/
structure ApplyRun (ρ β : Type) where
  out : Option ApplyOutcome
  table : TableImpl ρ β

/-- Table::Apply: clone the policies, build the request, classify
idempotency, then run the retry loop on the clones. -/
def TableImpl.Apply {ρ β : Type} (t : TableImpl ρ β) (retry : RetryPolicy ρ)
    (backoff : BackoffPolicy β) (srm : SingleRowMutation)
    (outcome : Nat → GrpcStatus) (fuel : Nat) : ApplyRun ρ β :=
  let rpcPolicy := clonePolicy t.rpcRetryPolicy
  let backoffPolicy := clonePolicy t.rpcBackoffPolicy
  let idempotentPolicy := clonePolicy t.idempotentMutationPolicy
  let request := buildMutateRowRequest t srm
  let isIdem := applyIsIdempotent idempotentPolicy request
  { out := applyLoop retry backoff isIdem outcome fuel rpcPolicy backoffPolicy 0
    table := t }

/-- Modelled from the spec: the limited-error-count retry policy used with
Table is not under src/ (table.cc only calls it through the RetryPolicy
interface).  Per the spec, a retry policy is stateful, tracks the attempts
made, advances only on failures it is shown, and decides whether another
attempt is permitted.  The state is the number of failures seen so far;
`attemptBound` is the configured bound on total attempts, so OnFailure
permits a retry exactly when the status is transient and the bound is not
yet reached. -/
def countedRetryPolicy (attemptBound : Nat) (transient : GrpcStatus → Bool) :
    RetryPolicy Nat :=
  ⟨fun failures st =>
    (transient st && decide (failures + 1 < attemptBound), failures + 1)⟩

/-- FailedMutation: the terminal outcome for one entry of a BulkMutation,
as the original submission index plus the last status seen. -/
structure FailedMutation where
  originalIndex : Nat
  status : GrpcStatus
deriving DecidableEq, Repr

/-- One still-pending entry of the bulk mutator: its original submission
index, its mutation, and the last status it was shown. -/
structure PendingEntry where
  originalIndex : Nat
  srm : SingleRowMutation
  lastStatus : GrpcStatus
deriving DecidableEq, Repr

/-- State of internal::BulkMutator: the pending entries, the accumulated
failures, and the original indices that have succeeded in some round. -/
structure MutatorState where
  pending : List PendingEntry
  failures : List FailedMutation
  succeeded : List Nat
deriving DecidableEq, Repr

/-- Environment of one round of BulkApply: either the whole-request
transport call failed outright (no per-entry detail), or the call got
through and the response carries one status per entry sent. -/
inductive RoundOutcome where
  | transport (st : GrpcStatus)
  | perEntry (sts : List GrpcStatus)
deriving DecidableEq, Repr

/-- A SingleRowMutation is idempotent when every one of its mutations is,
matching the classification Table::Apply uses for a whole request. -/
def srmIsIdempotent (pol : Mutation → Bool) (srm : SingleRowMutation) :
    Bool :=
  srm.mutations.all pol

/-- Modelled from the spec: the per-entry disposition inside
internal::BulkMutator (not under src/).  Walks the pending entries paired
with the per-entry statuses of the response: a success is removed from
pending (its index recorded as succeeded); a failure stays pending when
the mutation is idempotent and the status retryable, and otherwise moves
to the failures with its original index and last status.  Returns the new
pending list, the newly added failures, and the newly succeeded
indices. -/
def processEntries (pol : Mutation → Bool) (retryable : GrpcStatus → Bool) :
    List PendingEntry → List GrpcStatus →
    List PendingEntry × List FailedMutation × List Nat
  | [], _ => ([], [], [])
  | e :: es, [] => (e :: es, [], [])
  | e :: es, st :: sts =>
    let rest := processEntries pol retryable es sts
    if st.isOk then
      (rest.1, rest.2.1, e.originalIndex :: rest.2.2)
    else if srmIsIdempotent pol e.srm && retryable st then
      ({ e with lastStatus := st } :: rest.1, rest.2.1, rest.2.2)
    else
      (rest.1, ⟨e.originalIndex, st⟩ :: rest.2.1, rest.2.2)

/-- Modelled from the spec: internal::BulkMutator::MakeOneRequest (not
under src/).  Issues one batched request over the pending entries and
returns the whole-request grpc status together with the updated state: on
a transport failure there is no per-entry detail, every pending entry just
records that status; otherwise the per-entry statuses are dispatched by
processEntries and the whole-request status is OK. -/
def makeOneRequest (pol : Mutation → Bool) (retryable : GrpcStatus → Bool)
    (m : MutatorState) (r : RoundOutcome) : GrpcStatus × MutatorState :=
  match r with
  | .transport st =>
    (st, { m with pending := m.pending.map fun e => { e with lastStatus := st } })
  | .perEntry sts =>
    let d := processEntries pol retryable m.pending sts
    (⟨0⟩, { pending := d.1
            failures := m.failures ++ d.2.1
            succeeded := m.succeeded ++ d.2.2 })

/-- internal::BulkMutator::HasPendingMutations -/
def hasPendingMutations (m : MutatorState) : Bool := !m.pending.isEmpty

/-- Modelled from the spec: internal::BulkMutator::ExtractFinalFailures
(not under src/).  The accumulated failures plus every still-pending entry
treated as failed with its last status. -/
def extractFinalFailures (m : MutatorState) : List FailedMutation :=
  m.failures ++ m.pending.map fun e => ⟨e.originalIndex, e.lastStatus⟩

/-- Builds the pending list of a fresh mutator, tagging each entry with
its original submission index starting at `i`. -/
def initPending : Nat → List SingleRowMutation → List PendingEntry
  | _, [] => []
  | i, srm :: rest => ⟨i, srm, ⟨0⟩⟩ :: initPending (i + 1) rest

/-- A fresh BulkMutator over a BulkMutation: all entries pending, indexed
by submission order; no failures, no successes yet. -/
def initMutator (muts : List SingleRowMutation) : MutatorState :=
  ⟨initPending 0 muts, [], []⟩

/-- Trace of a completed BulkApply loop: the final mutator state, the
whole-request status of every executed round, the statuses passed to
backoff OnCompletion (one per sleep), and whether the loop exited through
the retry-policy break. -/
structure BulkLoopResult where
  mutator : MutatorState
  roundStatuses : List GrpcStatus
  onCompletionStatuses : List GrpcStatus
  brokeByPolicy : Bool
deriving DecidableEq, Repr

/-- The while loop of Table::BulkApply: while the mutator has pending
mutations, make one request; if the whole-request status is a failure and
the retry policy refuses, break; otherwise call backoff OnCompletion with
the round's status (whatever it is) and sleep, then loop.  `rounds` is the
environment; `none` means it was exhausted while the loop wanted another
round.  Note OnFailure is short-circuited: it is consulted (and its state
advanced) only when the round's status is not OK, exactly as in the
source. -/
def bulkApplyLoop {ρ β : Type} (pol : Mutation → Bool)
    (retryable : GrpcStatus → Bool) (retry : RetryPolicy ρ)
    (backoff : BackoffPolicy β) :
    List RoundOutcome → MutatorState → ρ → β → Option BulkLoopResult
  | [], m, _, _ =>
    if m.pending.isEmpty then some ⟨m, [], [], false⟩ else none
  | r :: rest, m, rs, bs =>
    if m.pending.isEmpty then some ⟨m, [], [], false⟩
    else
      let step := makeOneRequest pol retryable m r
      if !step.1.isOk && !(retry.onFailure rs step.1).1 then
        some ⟨step.2, [step.1], [], true⟩
      else
        let rs1 := if step.1.isOk then rs else (retry.onFailure rs step.1).2
        let bc := backoff.onCompletion bs step.1
        match bulkApplyLoop pol retryable retry backoff rest step.2 rs1 bc.2 with
        | none => none
        | some res =>
          some ⟨res.mutator, step.1 :: res.roundStatuses,
                step.1 :: res.onCompletionStatuses, res.brokeByPolicy⟩

/-- Result of running Table::BulkApply: the returned FailedMutation list
(data, not an exception), the loop trace, and the table state after the
call. -/
structure BulkRun (ρ β : Type) where
  failures : Option (List FailedMutation)
  run : Option BulkLoopResult
  table : TableImpl ρ β

/-- Table::BulkApply: clone the policies, build a mutator over the bulk
mutation, run the retry loop on the clones, and return the extracted final
failures as data. -/
def TableImpl.BulkApply {ρ β : Type} (t : TableImpl ρ β)
    (retry : RetryPolicy ρ) (backoff : BackoffPolicy β)
    (retryable : GrpcStatus → Bool) (muts : List SingleRowMutation)
    (rounds : List RoundOutcome) : BulkRun ρ β :=
  let backoffPolicy := clonePolicy t.rpcBackoffPolicy
  let retryPolicy := clonePolicy t.rpcRetryPolicy
  let idempotentPolicy := clonePolicy t.idempotentMutationPolicy
  let mutator := initMutator muts
  let run :=
    bulkApplyLoop idempotentPolicy retryable retry backoff rounds mutator
      retryPolicy backoffPolicy
  { failures := run.map fun res => extractFinalFailures res.mutator
    run := run
    table := t }

/-- StatusOr<A>: either a value or an error status. -/
inductive StatusOr (α : Type) where
  | ok (value : α)
  | error (status : Status)
deriving DecidableEq, Repr

/-- One cell of a row. -/
structure Cell where
  family : String
  column : String
  timestampMicros : Int
  value : String
deriving DecidableEq, Repr

/-- Row: a row key plus its cells. -/
structure Row where
  rowKey : String
  cells : List Cell
deriving DecidableEq, Repr

/-- The Row("", {}) returned by Table::ReadRow when nothing matched. -/
def emptyRow : Row := ⟨"", []⟩

/-- The internal error Table::ReadRow returns when the reader yields a
second element after the first row. -/
def readRowInternalError : Status :=
  ⟨internalCode, "internal error - RowReader returned 2 rows in ReadRow()"⟩

/-- The body of Table::ReadRow over the sequence of elements the RowReader
would yield: nothing yielded gives (found=false, empty row); a first
element that is an error propagates that status; a first row with nothing
after it gives (found=true, that row); any second element after the first
row is the protocol-violation internal error. -/
def readRowResult (yields : List (StatusOr Row)) : StatusOr (Bool × Row) :=
  match yields with
  | [] => .ok (false, emptyRow)
  | .error s :: _ => .error s
  | .ok r :: rest =>
    if rest.isEmpty then .ok (true, r) else .error readRowInternalError

/-- The observable effect of Table::ReadRow: the row set it scans, the
rows limit it passes to ReadRows, and the returned result. -/
structure ReadRowCall where
  rowSet : List String
  rowsLimit : Int
  result : StatusOr (Bool × Row)
deriving DecidableEq, Repr

/-- Table::ReadRow: a scan of the single row key with rows_limit = 1,
consuming the reader as in the source. -/
def TableImpl.ReadRow {ρ β : Type} (t : TableImpl ρ β) (rowKey : String)
    (yields : List (StatusOr Row)) : ReadRowCall × TableImpl ρ β :=
  (⟨[rowKey], 1, readRowResult yields⟩, t)

/-- The RowReader construction performed by Table::ReadRows: it captures
the row set, the limit, and fresh clones of the table's retry and backoff
policies. -/
structure RowReaderCtor (ρ β : Type) where
  rowSet : List String
  rowsLimit : Int
  retryPolicy : ρ
  backoffPolicy : β

/-- Table::ReadRows: constructs a RowReader from policy clones and returns
with the table state unchanged. -/
def TableImpl.ReadRows {ρ β : Type} (t : TableImpl ρ β)
    (rowSet : List String) (rowsLimit : Int) :
    RowReaderCtor ρ β × TableImpl ρ β :=
  (⟨rowSet, rowsLimit, clonePolicy t.rpcRetryPolicy,
    clonePolicy t.rpcBackoffPolicy⟩, t)

/-- A retry policy that always permits another attempt. -/
def alwaysRetry : RetryPolicy Unit := ⟨fun s _ => (true, s)⟩

/-- A retry policy that never permits another attempt. -/
def neverRetry : RetryPolicy Unit := ⟨fun s _ => (false, s)⟩

/-- A backoff policy with a constant delay. -/
def constantBackoff : BackoffPolicy Unit := ⟨fun s _ => (10, s)⟩

/-- A demonstration table with unit policy states. -/
def demoTable : TableImpl Unit Unit :=
  ⟨(), (), fun _ => true, "profile", "projects/p/instances/i/tables/t"⟩

/-- An RPC environment whose first attempt fails with UNAVAILABLE and whose
later attempts succeed. -/
def failThenOk : Nat → GrpcStatus := fun n => if n == 0 then ⟨14⟩ else ⟨0⟩

/-- C1: Table::Apply classifies the request as idempotent exactly when every
mutation in the built request is individually idempotent, and then loops: a
successful RPC returns OK immediately; a failed RPC where the retry policy
rejects another attempt or the request is not idempotent returns a permanent
error carrying the RPC failure's code; otherwise the loop advances the retry
and backoff policies (taking the backoff delay) and retries; and Apply runs
exactly this loop on the classification of the built request. -/
theorem apply_idempotency_and_loop_contract {ρ β : Type}
    (retry : RetryPolicy ρ) (backoff : BackoffPolicy β) (isIdem : Bool)
    (outcome : Nat → GrpcStatus) :
    (∀ (pol : Mutation → Bool) (req : MutateRowRequest),
        applyIsIdempotent pol req = true ↔ ∀ m ∈ req.mutations, pol m = true)
    ∧ (∀ fuel rs bs n, (outcome n).isOk = true →
        applyLoop retry backoff isIdem outcome (fuel + 1) rs bs n =
          some ⟨okStatus, n + 1⟩)
    ∧ (∀ fuel rs bs n, (outcome n).isOk = false →
        ((retry.onFailure rs (outcome n)).1 = false ∨ isIdem = false) →
        applyLoop retry backoff isIdem outcome (fuel + 1) rs bs n =
          some ⟨makeStatusFromRpcError (outcome n).code
                  applyPermanentErrorMessage, n + 1⟩
          ∧ (makeStatusFromRpcError (outcome n).code
              applyPermanentErrorMessage).code = (outcome n).code)
    ∧ (∀ fuel rs bs n, (outcome n).isOk = false →
        (retry.onFailure rs (outcome n)).1 = true → isIdem = true →
        applyLoop retry backoff isIdem outcome (fuel + 1) rs bs n =
          applyLoop retry backoff isIdem outcome fuel
            (retry.onFailure rs (outcome n)).2
            (backoff.onCompletion bs (outcome n)).2 (n + 1))
    ∧ (∀ (t : TableImpl ρ β) (srm : SingleRowMutation) fuel,
        (TableImpl.Apply t retry backoff srm outcome fuel).out =
          applyLoop retry backoff
            (applyIsIdempotent t.idempotentMutationPolicy
              (buildMutateRowRequest t srm)) outcome fuel
            t.rpcRetryPolicy t.rpcBackoffPolicy 0) := by
  refine ⟨?_, ?_, ?_, ?_, ?_⟩
  · intro pol req
    simp [applyIsIdempotent, List.all_eq_true]
  · intro fuel rs bs n h
    simp [applyLoop, h]
  · intro fuel rs bs n h hrej
    refine ⟨?_, rfl⟩
    rcases hrej with h1 | h1 <;> simp [applyLoop, h, h1]
  · intro fuel rs bs n h h1 h2
    simp [applyLoop, h, h1, h2]
  · intro t srm fuel
    rfl

/-- Witness for C1: at a concrete environment where attempt 0 fails with
UNAVAILABLE and the policy refuses, the loop returns the permanent error
carrying code 14 after one attempt. -/
theorem apply_idempotency_and_loop_contract_witness :
    applyLoop neverRetry constantBackoff true (fun _ => ⟨14⟩) 1 () () 0 =
      some ⟨makeStatusFromRpcError 14 applyPermanentErrorMessage, 1⟩
    ∧ (makeStatusFromRpcError 14 applyPermanentErrorMessage).code = 14 :=
  (apply_idempotency_and_loop_contract neverRetry constantBackoff true
      (fun _ => ⟨14⟩)).2.2.1 0 () () 0 rfl (Or.inl rfl)

/-- C10: a SingleRowMutation with zero mutations is classified idempotent by
Apply (the conjunction over an empty request is true), so on a transient RPC
failure the empty request is retried rather than failed permanently: with
the first attempt failing, the retry policy willing, and the second attempt
succeeding, Apply returns success after two attempts. -/
theorem apply_empty_request_is_idempotent {ρ β : Type}
    (retry : RetryPolicy ρ) (backoff : BackoffPolicy β) (t : TableImpl ρ β)
    (key : String) (outcome : Nat → GrpcStatus) (fuel : Nat) :
    (∀ (pol : Mutation → Bool) (req : MutateRowRequest),
        req.mutations = [] → applyIsIdempotent pol req = true)
    ∧ applyIsIdempotent t.idempotentMutationPolicy
        (buildMutateRowRequest t ⟨key, []⟩) = true
    ∧ ((outcome 0).isOk = false →
        (retry.onFailure t.rpcRetryPolicy (outcome 0)).1 = true →
        (outcome 1).isOk = true →
        (TableImpl.Apply t retry backoff ⟨key, []⟩ outcome (fuel + 2)).out =
          some ⟨okStatus, 2⟩) := by
  refine ⟨?_, rfl, ?_⟩
  · intro pol req h
    simp [applyIsIdempotent, h]
  · intro h0 h1 h2
    simp [TableImpl.Apply, clonePolicy, applyIsIdempotent,
      buildMutateRowRequest, applyLoop, h0, h1, h2]

/-- Witness for C10: with an always-willing retry policy and an environment
failing once then succeeding, applying an empty SingleRowMutation succeeds
after two attempts. -/
theorem apply_empty_request_is_idempotent_witness :
    (TableImpl.Apply demoTable alwaysRetry constantBackoff ⟨"k", []⟩
        failThenOk 2).out = some ⟨okStatus, 2⟩ :=
  (apply_empty_request_is_idempotent alwaysRetry constantBackoff demoTable
      "k" failThenOk 0).2.2 rfl rfl rfl

/-- A table whose retry-policy state is a fresh failure counter. -/
def demoCountedTable : TableImpl Nat Unit :=
  ⟨0, (), fun _ => true, "profile", "projects/p/instances/i/tables/t"⟩

/-- Helper: under the counted retry policy, an idempotent request that fails
transiently on attempts n..n+k-1 (with the counter at c and c+k below the
bound) and succeeds on attempt n+k makes the loop return success after
attempt n+k. -/
theorem applyLoop_counted_reaches_success {β : Type} (attemptBound : Nat)
    (transient : GrpcStatus → Bool) (backoff : BackoffPolicy β)
    (outcome : Nat → GrpcStatus) :
    ∀ (k fuel c n : Nat) (bs : β), k + 1 ≤ fuel → c + k < attemptBound →
      (∀ i, i < k → (outcome (n + i)).isOk = false ∧
        transient (outcome (n + i)) = true) →
      (outcome (n + k)).isOk = true →
      applyLoop (countedRetryPolicy attemptBound transient) backoff true
        outcome fuel c bs n = some ⟨okStatus, n + k + 1⟩ := by
  intro k
  induction k with
  | zero =>
    intro fuel c n bs hfuel hb hfail hok
    obtain ⟨f, rfl⟩ : ∃ f, fuel = f + 1 := ⟨fuel - 1, by omega⟩
    simp only [Nat.add_zero] at hok ⊢
    simp [applyLoop, hok]
  | succ k ih =>
    intro fuel c n bs hfuel hb hfail hok
    obtain ⟨f, rfl⟩ : ∃ f, fuel = f + 1 := ⟨fuel - 1, by omega⟩
    obtain ⟨h0fail, h0tr⟩ := hfail 0 (by omega)
    simp only [Nat.add_zero] at h0fail h0tr
    have hfail1 : ∀ i, i < k → (outcome (n + 1 + i)).isOk = false ∧
        transient (outcome (n + 1 + i)) = true := by
      intro i hi
      have h := hfail (i + 1) (by omega)
      have e : n + (i + 1) = n + 1 + i := by omega
      rw [e] at h
      exact h
    have hok1 : (outcome (n + 1 + k)).isOk = true := by
      have e : n + (k + 1) = n + 1 + k := by omega
      rw [e] at hok
      exact hok
    have hrec := ih f (c + 1) (n + 1)
      ((backoff.onCompletion bs (outcome n)).2) (by omega) (by omega)
      hfail1 hok1
    have e2 : n + 1 + k + 1 = n + (k + 1) + 1 := by omega
    rw [e2] at hrec
    have hcond : (transient (outcome n)
        && decide (c + 1 < attemptBound)) = true := by
      simp [h0tr]
      omega
    simpa [applyLoop, h0fail, countedRetryPolicy, hcond] using hrec

/-- Helper: under the counted retry policy, a request that fails transiently
on every attempt drives the loop to the permanent error exactly when the
counter reaches the bound, after attemptBound - c further attempts. -/
theorem applyLoop_counted_exhausts {β : Type} (attemptBound : Nat)
    (transient : GrpcStatus → Bool) (backoff : BackoffPolicy β)
    (outcome : Nat → GrpcStatus)
    (hfail : ∀ i, (outcome i).isOk = false ∧ transient (outcome i) = true) :
    ∀ (fuel c n : Nat) (bs : β), c < attemptBound →
      attemptBound - c ≤ fuel →
      applyLoop (countedRetryPolicy attemptBound transient) backoff true
        outcome fuel c bs n =
        some ⟨makeStatusFromRpcError
                (outcome (n + (attemptBound - c) - 1)).code
                applyPermanentErrorMessage, n + (attemptBound - c)⟩ := by
  intro fuel
  induction fuel with
  | zero =>
    intro c n bs hc hfuel
    omega
  | succ f ih =>
    intro c n bs hc hfuel
    obtain ⟨hnf, hntr⟩ := hfail n
    by_cases hcb : c + 1 < attemptBound
    · have hrec := ih (c + 1) (n + 1)
        ((backoff.onCompletion bs (outcome n)).2) (by omega) (by omega)
      have e1 : n + 1 + (attemptBound - (c + 1)) = n + (attemptBound - c) := by
        omega
      rw [e1] at hrec
      have hcond : (transient (outcome n)
          && decide (c + 1 < attemptBound)) = true := by
        simp [hntr, hcb]
      simpa [applyLoop, hnf, countedRetryPolicy, hcond] using hrec
    · have h1 : attemptBound - c = 1 := by omega
      have hcond : (transient (outcome n)
          && decide (c + 1 < attemptBound)) = false := by
        simp [hcb]
      simp [applyLoop, hnf, countedRetryPolicy, hcond, h1]

/-- C5: for an idempotent SingleRowMutation and any k strictly below the
retry policy's attempt bound, if the RPC fails transiently on exactly the
first k attempts and succeeds on the next, Apply returns success having
issued exactly k+1 RPC attempts. -/
theorem apply_succeeds_after_k_transient_failures {β : Type}
    (t : TableImpl Nat β) (srm : SingleRowMutation) (attemptBound k : Nat)
    (transient : GrpcStatus → Bool) (backoff : BackoffPolicy β)
    (outcome : Nat → GrpcStatus) (fuel : Nat)
    (hidem : applyIsIdempotent t.idempotentMutationPolicy
      (buildMutateRowRequest t srm) = true)
    (hzero : t.rpcRetryPolicy = 0)
    (hk : k < attemptBound) (hfuel : k + 1 ≤ fuel)
    (hfail : ∀ i, i < k → (outcome i).isOk = false ∧
      transient (outcome i) = true)
    (hok : (outcome k).isOk = true) :
    (TableImpl.Apply t (countedRetryPolicy attemptBound transient) backoff
        srm outcome fuel).out = some ⟨okStatus, k + 1⟩ := by
  have h := applyLoop_counted_reaches_success attemptBound transient backoff
    outcome k fuel 0 0 t.rpcBackoffPolicy hfuel (by omega)
    (fun i hi => by simpa using hfail i hi) (by simpa using hok)
  simp only [Nat.zero_add] at h
  simp [TableImpl.Apply, clonePolicy, hidem, hzero, h]

/-- Witness for C5: with attempt bound 3 and attempts 0 and 1 failing with
UNAVAILABLE, Apply succeeds on attempt 2, i.e. after exactly 3 attempts. -/
theorem apply_succeeds_after_k_transient_failures_witness :
    (TableImpl.Apply demoCountedTable
        (countedRetryPolicy 3 fun st => st.code == 14) constantBackoff
        ⟨"k", [Mutation.deleteFromRow]⟩
        (fun n => if n < 2 then ⟨14⟩ else ⟨0⟩) 3).out =
      some ⟨okStatus, 3⟩ :=
  apply_succeeds_after_k_transient_failures demoCountedTable
    ⟨"k", [Mutation.deleteFromRow]⟩ 3 2 (fun st => st.code == 14)
    constantBackoff (fun n => if n < 2 then ⟨14⟩ else ⟨0⟩) 3 rfl rfl
    (by omega) (by omega)
    (fun i hi => by
      match i, hi with
      | 0, _ => exact ⟨rfl, rfl⟩
      | 1, _ => exact ⟨rfl, rfl⟩)
    rfl

/-- C6: for an idempotent SingleRowMutation whose every RPC attempt fails
with a transient status, Apply terminates with the permanent
(policy-exhausted) error after a number of attempts equal to the retry
policy's configured bound; fuel equal to that bound already suffices, so the
loop does not run forever. -/
theorem apply_terminates_at_policy_bound {β : Type}
    (t : TableImpl Nat β) (srm : SingleRowMutation) (attemptBound : Nat)
    (transient : GrpcStatus → Bool) (backoff : BackoffPolicy β)
    (outcome : Nat → GrpcStatus) (fuel : Nat)
    (hidem : applyIsIdempotent t.idempotentMutationPolicy
      (buildMutateRowRequest t srm) = true)
    (hzero : t.rpcRetryPolicy = 0)
    (hbound : 1 ≤ attemptBound) (hfuel : attemptBound ≤ fuel)
    (hfail : ∀ i, (outcome i).isOk = false ∧ transient (outcome i) = true) :
    (TableImpl.Apply t (countedRetryPolicy attemptBound transient) backoff
        srm outcome fuel).out =
      some ⟨makeStatusFromRpcError (outcome (attemptBound - 1)).code
              applyPermanentErrorMessage, attemptBound⟩ := by
  have h := applyLoop_counted_exhausts attemptBound transient backoff
    outcome hfail fuel 0 0 t.rpcBackoffPolicy (by omega) (by omega)
  simp only [Nat.zero_add, Nat.sub_zero] at h
  simp [TableImpl.Apply, clonePolicy, hidem, hzero, h]

/-- Witness for C6: with attempt bound 2 and every attempt failing with
UNAVAILABLE, Apply returns the permanent error after exactly 2 attempts. -/
theorem apply_terminates_at_policy_bound_witness :
    (TableImpl.Apply demoCountedTable
        (countedRetryPolicy 2 fun st => st.code == 14) constantBackoff
        ⟨"k", [Mutation.deleteFromRow]⟩ (fun _ => ⟨14⟩) 2).out =
      some ⟨makeStatusFromRpcError 14 applyPermanentErrorMessage, 2⟩ :=
  apply_terminates_at_policy_bound demoCountedTable
    ⟨"k", [Mutation.deleteFromRow]⟩ 2 (fun st => st.code == 14)
    constantBackoff (fun _ => ⟨14⟩) 2 rfl rfl (by omega) (by omega)
    (fun i => ⟨rfl, rfl⟩)

/-- Helper: the BulkApply loop with no pending mutations returns at once
with an empty trace. -/
theorem bulkApplyLoop_no_pending {ρ β : Type} (pol : Mutation → Bool)
    (retryable : GrpcStatus → Bool) (retry : RetryPolicy ρ)
    (backoff : BackoffPolicy β) (rounds : List RoundOutcome)
    (m : MutatorState) (rs : ρ) (bs : β) (h : m.pending = []) :
    bulkApplyLoop pol retryable retry backoff rounds m rs bs =
      some ⟨m, [], [], false⟩ := by
  cases rounds <;> simp [bulkApplyLoop, h]

/-- Helper: a completed BulkApply loop exited with no pending mutations or
through the retry-policy break after a failed whole-request call. -/
theorem bulkApplyLoop_some_exit {ρ β : Type} (pol : Mutation → Bool)
    (retryable : GrpcStatus → Bool) (retry : RetryPolicy ρ)
    (backoff : BackoffPolicy β) :
    ∀ (rounds : List RoundOutcome) (m : MutatorState) (rs : ρ) (bs : β)
      (res : BulkLoopResult),
      bulkApplyLoop pol retryable retry backoff rounds m rs bs = some res →
      res.mutator.pending = [] ∨ res.brokeByPolicy = true := by
  intro rounds
  induction rounds with
  | nil =>
    intro m rs bs res h
    cases hp : m.pending.isEmpty with
    | true =>
      simp [bulkApplyLoop, hp] at h
      subst h
      exact Or.inl (List.isEmpty_iff.mp hp)
    | false =>
      simp [bulkApplyLoop, hp] at h
  | cons r rest ih =>
    intro m rs bs res h
    cases hp : m.pending.isEmpty with
    | true =>
      simp [bulkApplyLoop, hp] at h
      subst h
      exact Or.inl (List.isEmpty_iff.mp hp)
    | false =>
      cases hguard : (!(makeOneRequest pol retryable m r).1.isOk &&
          !(retry.onFailure rs (makeOneRequest pol retryable m r).1).1) with
      | true =>
        simp [bulkApplyLoop, hp, hguard] at h
        subst h
        exact Or.inr rfl
      | false =>
        cases hrec : bulkApplyLoop pol retryable retry backoff rest
            (makeOneRequest pol retryable m r).2
            (if (makeOneRequest pol retryable m r).1.isOk then rs
             else (retry.onFailure rs (makeOneRequest pol retryable m r).1).2)
            (backoff.onCompletion bs (makeOneRequest pol retryable m r).1).2 with
        | none =>
          simp [bulkApplyLoop, hp, hguard, hrec] at h
        | some res1 =>
          simp [bulkApplyLoop, hp, hguard, hrec] at h
          subst h
          rcases ih _ _ _ _ hrec with h1 | h1
          · exact Or.inl h1
          · exact Or.inr h1

/-- Helper: in a completed BulkApply loop, the statuses passed to backoff
OnCompletion are exactly the statuses of all executed rounds when the loop
did not break, and all but the final (failed) round's status when it
broke. -/
theorem bulkApplyLoop_backoff_trace {ρ β : Type} (pol : Mutation → Bool)
    (retryable : GrpcStatus → Bool) (retry : RetryPolicy ρ)
    (backoff : BackoffPolicy β) :
    ∀ (rounds : List RoundOutcome) (m : MutatorState) (rs : ρ) (bs : β)
      (res : BulkLoopResult),
      bulkApplyLoop pol retryable retry backoff rounds m rs bs = some res →
      (res.brokeByPolicy = false →
        res.onCompletionStatuses = res.roundStatuses)
      ∧ (res.brokeByPolicy = true → ∃ st, st.isOk = false ∧
          res.roundStatuses = res.onCompletionStatuses ++ [st]) := by
  intro rounds
  induction rounds with
  | nil =>
    intro m rs bs res h
    cases hp : m.pending.isEmpty with
    | true =>
      simp [bulkApplyLoop, hp] at h
      subst h
      exact ⟨fun _ => rfl, fun hb => by simp at hb⟩
    | false =>
      simp [bulkApplyLoop, hp] at h
  | cons r rest ih =>
    intro m rs bs res h
    cases hp : m.pending.isEmpty with
    | true =>
      simp [bulkApplyLoop, hp] at h
      subst h
      exact ⟨fun _ => rfl, fun hb => by simp at hb⟩
    | false =>
      cases hguard : (!(makeOneRequest pol retryable m r).1.isOk &&
          !(retry.onFailure rs (makeOneRequest pol retryable m r).1).1) with
      | true =>
        have hnotok : (makeOneRequest pol retryable m r).1.isOk = false := by
          rcases Bool.and_eq_true _ _ |>.mp hguard with ⟨h1, _⟩
          simpa using h1
        simp [bulkApplyLoop, hp, hguard] at h
        subst h
        refine ⟨fun hb => by simp at hb, fun _ => ?_⟩
        exact ⟨(makeOneRequest pol retryable m r).1, hnotok, rfl⟩
      | false =>
        cases hrec : bulkApplyLoop pol retryable retry backoff rest
            (makeOneRequest pol retryable m r).2
            (if (makeOneRequest pol retryable m r).1.isOk then rs
             else (retry.onFailure rs (makeOneRequest pol retryable m r).1).2)
            (backoff.onCompletion bs (makeOneRequest pol retryable m r).1).2 with
        | none =>
          simp [bulkApplyLoop, hp, hguard, hrec] at h
        | some res1 =>
          simp [bulkApplyLoop, hp, hguard, hrec] at h
          subst h
          obtain ⟨hnb, hb⟩ := ih _ _ _ _ hrec
          refine ⟨fun hres => ?_, fun hres => ?_⟩
          · simp [hnb hres]
          · obtain ⟨st, hst, he⟩ := hb hres
            exact ⟨st, hst, by simp [he]⟩

/-- C2: BulkApply never raises: whenever its loop completes it returns the
accumulated FailedMutation list as ordinary data, and the loop terminates
exactly when no mutations are pending or the retry policy refuses another
attempt after a failed whole-request call: it returns immediately on empty
pending, a completed run ended with empty pending or through the policy
break, and in every other situation (round status OK, or failed but the
policy accepts) it continues with the next round. -/
theorem bulkapply_failures_are_data_and_loop_exit {ρ β : Type}
    (pol : Mutation → Bool) (retryable : GrpcStatus → Bool)
    (retry : RetryPolicy ρ) (backoff : BackoffPolicy β) :
    (∀ (rounds : List RoundOutcome) (m : MutatorState) (rs : ρ) (bs : β),
        m.pending = [] →
        bulkApplyLoop pol retryable retry backoff rounds m rs bs =
          some ⟨m, [], [], false⟩)
    ∧ (∀ (rounds : List RoundOutcome) (m : MutatorState) (rs : ρ) (bs : β)
        (res : BulkLoopResult),
        bulkApplyLoop pol retryable retry backoff rounds m rs bs = some res →
        res.mutator.pending = [] ∨ res.brokeByPolicy = true)
    ∧ (∀ (r : RoundOutcome) (rest : List RoundOutcome) (m : MutatorState)
        (rs : ρ) (bs : β),
        m.pending.isEmpty = false →
        ((makeOneRequest pol retryable m r).1.isOk = true ∨
          (retry.onFailure rs (makeOneRequest pol retryable m r).1).1 = true) →
        bulkApplyLoop pol retryable retry backoff (r :: rest) m rs bs =
          (bulkApplyLoop pol retryable retry backoff rest
              (makeOneRequest pol retryable m r).2
              (if (makeOneRequest pol retryable m r).1.isOk then rs
               else (retry.onFailure rs (makeOneRequest pol retryable m r).1).2)
              (backoff.onCompletion bs (makeOneRequest pol retryable m r).1).2).map
            fun res => ⟨res.mutator,
              (makeOneRequest pol retryable m r).1 :: res.roundStatuses,
              (makeOneRequest pol retryable m r).1 :: res.onCompletionStatuses,
              res.brokeByPolicy⟩)
    ∧ (∀ (t : TableImpl ρ β) (muts : List SingleRowMutation)
        (rounds : List RoundOutcome),
        (TableImpl.BulkApply t retry backoff retryable muts rounds).failures =
          (TableImpl.BulkApply t retry backoff retryable muts rounds).run.map
            fun res => extractFinalFailures res.mutator) := by
  refine ⟨?_, bulkApplyLoop_some_exit pol retryable retry backoff, ?_, ?_⟩
  · intro rounds m rs bs h
    exact bulkApplyLoop_no_pending pol retryable retry backoff rounds m rs bs h
  · intro r rest m rs bs hp hcont
    have hguard : (!(makeOneRequest pol retryable m r).1.isOk &&
        !(retry.onFailure rs (makeOneRequest pol retryable m r).1).1) = false := by
      rcases hcont with h | h <;> simp [h]
    cases hrec : bulkApplyLoop pol retryable retry backoff rest
        (makeOneRequest pol retryable m r).2
        (if (makeOneRequest pol retryable m r).1.isOk then rs
         else (retry.onFailure rs (makeOneRequest pol retryable m r).1).2)
        (backoff.onCompletion bs (makeOneRequest pol retryable m r).1).2 with
    | none => simp [bulkApplyLoop, hp, hguard, hrec]
    | some res1 => simp [bulkApplyLoop, hp, hguard, hrec]
  · intro t muts rounds
    rfl

/-- Witness for C2: a bulk mutation whose only entry succeeds in the first
round completes with no pending entries, no policy break, and an empty
failure list returned as data. -/
theorem bulkapply_failures_are_data_and_loop_exit_witness :
    bulkApplyLoop (fun _ => true) (fun _ => true) alwaysRetry constantBackoff
        [] ⟨[], [], [0]⟩ () () = some ⟨⟨[], [], [0]⟩, [], [], false⟩ :=
  (bulkapply_failures_are_data_and_loop_exit (fun _ => true) (fun _ => true)
      alwaysRetry constantBackoff).1 [] ⟨[], [], [0]⟩ () () rfl

/-- A one-entry mutator used to exercise the bulk loop. -/
def demoEntry : PendingEntry := ⟨0, ⟨"k", [Mutation.deleteFromRow]⟩, ⟨0⟩⟩

/-- A mutator with exactly demoEntry pending. -/
def demoMutator : MutatorState := ⟨[demoEntry], [], []⟩

/-- C7: when a round's whole-request transport call fails with no per-entry
detail and the retry policy rejects continuing, the BulkApply loop
terminates through the break, and every still-pending entry appears in the
returned FailedMutation list carrying that transport failure status. -/
theorem bulkapply_transport_break_fails_all_pending {ρ β : Type}
    (pol : Mutation → Bool) (retryable : GrpcStatus → Bool)
    (retry : RetryPolicy ρ) (backoff : BackoffPolicy β) (st : GrpcStatus)
    (rest : List RoundOutcome) (m : MutatorState) (rs : ρ) (bs : β)
    (hp : m.pending.isEmpty = false)
    (hfailst : st.isOk = false)
    (hrej : (retry.onFailure rs st).1 = false) :
    bulkApplyLoop pol retryable retry backoff
        (RoundOutcome.transport st :: rest) m rs bs =
      some ⟨(makeOneRequest pol retryable m (RoundOutcome.transport st)).2,
            [st], [], true⟩
    ∧ ∀ e ∈ m.pending, FailedMutation.mk e.originalIndex st ∈
        extractFinalFailures
          (makeOneRequest pol retryable m (RoundOutcome.transport st)).2 := by
  constructor
  · simp [bulkApplyLoop, hp, makeOneRequest, hfailst, hrej]
  · intro e he
    refine List.mem_append.mpr (Or.inr ?_)
    simp only [makeOneRequest, List.map_map]
    exact List.mem_map.mpr ⟨e, he, rfl⟩

/-- Witness for C7: a single pending entry, a transport failure with
UNAVAILABLE, and a refusing policy: the loop breaks and the entry is
reported failed with that status. -/
theorem bulkapply_transport_break_fails_all_pending_witness :
    bulkApplyLoop (fun _ => true) (fun _ => true) neverRetry constantBackoff
        [RoundOutcome.transport ⟨14⟩] demoMutator () () =
      some ⟨(makeOneRequest (fun _ => true) (fun _ => true) demoMutator
              (RoundOutcome.transport ⟨14⟩)).2, [⟨14⟩], [], true⟩
    ∧ FailedMutation.mk 0 ⟨14⟩ ∈ extractFinalFailures
        (makeOneRequest (fun _ => true) (fun _ => true) demoMutator
          (RoundOutcome.transport ⟨14⟩)).2 :=
  ⟨(bulkapply_transport_break_fails_all_pending (fun _ => true) (fun _ => true)
      neverRetry constantBackoff ⟨14⟩ [] demoMutator () () rfl rfl rfl).1,
   (bulkapply_transport_break_fails_all_pending (fun _ => true) (fun _ => true)
      neverRetry constantBackoff ⟨14⟩ [] demoMutator () () rfl rfl rfl).2
     demoEntry (by simp [demoMutator])⟩

/-- Counterexample for C8 as stated: a bulk mutation whose only round
succeeds wholly.  The loop still calls backoff OnCompletion once — after
that final round, with the round's success status (code 0) — and then
sleeps, although no failure ever occurred and no further round follows. -/
theorem bulkapply_sleeps_after_final_round_counterexample :
    (bulkApplyLoop (fun _ => true) (fun _ => true) alwaysRetry constantBackoff
        [RoundOutcome.perEntry [⟨0⟩]] demoMutator () ()).map
        (fun res => (res.onCompletionStatuses, res.mutator.pending,
          res.brokeByPolicy)) =
      some ([⟨0⟩], [], false)
    ∧ GrpcStatus.isOk ⟨0⟩ = true := ⟨rfl, rfl⟩

/-- C8 amended: the backoff delay is computed and waited after every round
that does not terminate the loop through the retry-policy break — including
a final fully-successful round — and the status passed to the backoff
policy is that round's whole-request status, success or failure alike; only
a round that breaks the loop skips the wait. -/
theorem bulkapply_backoff_after_each_nonbreaking_round {ρ β : Type}
    (pol : Mutation → Bool) (retryable : GrpcStatus → Bool)
    (retry : RetryPolicy ρ) (backoff : BackoffPolicy β)
    (rounds : List RoundOutcome) (m : MutatorState) (rs : ρ) (bs : β)
    (res : BulkLoopResult)
    (h : bulkApplyLoop pol retryable retry backoff rounds m rs bs = some res) :
    (res.brokeByPolicy = false →
      res.onCompletionStatuses = res.roundStatuses)
    ∧ (res.brokeByPolicy = true → ∃ st, st.isOk = false ∧
        res.roundStatuses = res.onCompletionStatuses ++ [st]) :=
  bulkApplyLoop_backoff_trace pol retryable retry backoff rounds m rs bs res h

/-- Witness for C8 amended: in the one-successful-round run, the loop did
not break and the OnCompletion statuses equal the round statuses. -/
theorem bulkapply_backoff_after_each_nonbreaking_round_witness :
    (BulkLoopResult.mk ⟨[], [], [0]⟩ [⟨0⟩] [⟨0⟩] false).onCompletionStatuses =
      (BulkLoopResult.mk ⟨[], [], [0]⟩ [⟨0⟩] [⟨0⟩] false).roundStatuses :=
  (bulkapply_backoff_after_each_nonbreaking_round (fun _ => true)
      (fun _ => true) alwaysRetry constantBackoff
      [RoundOutcome.perEntry [⟨0⟩]] demoMutator () ()
      ⟨⟨[], [], [0]⟩, [⟨0⟩], [⟨0⟩], false⟩ rfl).1 rfl

/-- All original indices held by a mutator state: those of the pending
entries, of the recorded failures, and of the succeeded entries. -/
def entryIndices (m : MutatorState) : List Nat :=
  m.pending.map PendingEntry.originalIndex ++
    m.failures.map FailedMutation.originalIndex ++ m.succeeded

/-- Helper: processEntries redistributes each pending entry to exactly one
of pending, failures, succeeded — the indices it emits are a permutation of
the indices it was given. -/
theorem processEntries_indices_perm (pol : Mutation → Bool)
    (retryable : GrpcStatus → Bool) :
    ∀ (es : List PendingEntry) (sts : List GrpcStatus),
      ((processEntries pol retryable es sts).1.map PendingEntry.originalIndex ++
        (processEntries pol retryable es sts).2.1.map FailedMutation.originalIndex ++
        (processEntries pol retryable es sts).2.2).Perm
        (es.map PendingEntry.originalIndex) := by
  intro es
  induction es with
  | nil =>
    intro sts
    simp [processEntries]
  | cons e es ih =>
    intro sts
    cases sts with
    | nil => simp [processEntries]
    | cons st sts =>
      by_cases hok : st.isOk = true
      · simp only [processEntries, hok, if_true, List.map_cons]
        exact List.perm_middle.trans ((ih sts).cons e.originalIndex)
      · by_cases hkeep : (srmIsIdempotent pol e.srm && retryable st) = true
        · simp only [processEntries, hok, if_false, hkeep, if_true,
            List.map_cons, Bool.false_eq_true]
          exact (ih sts).cons e.originalIndex
        · simp only [processEntries, hok, if_false, hkeep, List.map_cons,
            Bool.false_eq_true]
          exact (List.perm_middle.append_right _).trans
            ((ih sts).cons e.originalIndex)

/-- Helper: one request of the bulk mutator neither invents nor drops
original indices — it only moves them between pending, failures and
succeeded. -/
theorem makeOneRequest_indices_perm (pol : Mutation → Bool)
    (retryable : GrpcStatus → Bool) (m : MutatorState) (r : RoundOutcome) :
    (entryIndices (makeOneRequest pol retryable m r).2).Perm
      (entryIndices m) := by
  cases r with
  | transport st =>
    simp only [entryIndices, makeOneRequest]
    rw [List.map_map]
    exact List.Perm.refl _
  | perEntry sts =>
    have hd := processEntries_indices_perm pol retryable m.pending sts
    simp only [entryIndices, makeOneRequest, List.map_append]
    rw [← Multiset.coe_eq_coe] at hd ⊢
    simp only [← Multiset.coe_add] at hd ⊢
    rw [← hd]
    abel

/-- Helper: a completed BulkApply loop preserves the set of original
indices of the initial mutator state, as a permutation. -/
theorem bulkApplyLoop_indices_perm {ρ β : Type} (pol : Mutation → Bool)
    (retryable : GrpcStatus → Bool) (retry : RetryPolicy ρ)
    (backoff : BackoffPolicy β) :
    ∀ (rounds : List RoundOutcome) (m : MutatorState) (rs : ρ) (bs : β)
      (res : BulkLoopResult),
      bulkApplyLoop pol retryable retry backoff rounds m rs bs = some res →
      (entryIndices res.mutator).Perm (entryIndices m) := by
  intro rounds
  induction rounds with
  | nil =>
    intro m rs bs res h
    cases hp : m.pending.isEmpty with
    | true =>
      simp [bulkApplyLoop, hp] at h
      subst h
      exact List.Perm.refl _
    | false =>
      simp [bulkApplyLoop, hp] at h
  | cons r rest ih =>
    intro m rs bs res h
    cases hp : m.pending.isEmpty with
    | true =>
      simp [bulkApplyLoop, hp] at h
      subst h
      exact List.Perm.refl _
    | false =>
      cases hguard : (!(makeOneRequest pol retryable m r).1.isOk &&
          !(retry.onFailure rs (makeOneRequest pol retryable m r).1).1) with
      | true =>
        simp [bulkApplyLoop, hp, hguard] at h
        subst h
        exact makeOneRequest_indices_perm pol retryable m r
      | false =>
        cases hrec : bulkApplyLoop pol retryable retry backoff rest
            (makeOneRequest pol retryable m r).2
            (if (makeOneRequest pol retryable m r).1.isOk then rs
             else (retry.onFailure rs (makeOneRequest pol retryable m r).1).2)
            (backoff.onCompletion bs (makeOneRequest pol retryable m r).1).2 with
        | none =>
          simp [bulkApplyLoop, hp, hguard, hrec] at h
        | some res1 =>
          simp [bulkApplyLoop, hp, hguard, hrec] at h
          subst h
          exact (ih _ _ _ _ hrec).trans
            (makeOneRequest_indices_perm pol retryable m r)

/-- Helper: the original indices of a fresh pending list starting at i are
i, i+1, ... in order. -/
theorem initPending_map_originalIndex :
    ∀ (i : Nat) (muts : List SingleRowMutation),
      (initPending i muts).map PendingEntry.originalIndex =
        List.range' i muts.length := by
  intro i muts
  induction muts generalizing i with
  | nil => simp [initPending]
  | cons srm rest ih => simp [initPending, List.range'_succ, ih]

/-- Helper: a fresh mutator holds exactly the indices 0..n-1. -/
theorem entryIndices_initMutator (muts : List SingleRowMutation) :
    entryIndices (initMutator muts) = List.range' 0 muts.length := by
  simp [entryIndices, initMutator, initPending_map_originalIndex]

/-- C4: across any sequence of per-entry outcomes and retry rounds, the
FailedMutation list returned by BulkApply has at most one entry per
original index, every index in it is an original submission position
(below the bulk mutation's length), and no index in it belongs to an entry
that succeeded in some round. -/
theorem bulkapply_failure_list_index_invariants {ρ β : Type}
    (pol : Mutation → Bool) (retryable : GrpcStatus → Bool)
    (retry : RetryPolicy ρ) (backoff : BackoffPolicy β)
    (muts : List SingleRowMutation) (rounds : List RoundOutcome)
    (rs : ρ) (bs : β) (res : BulkLoopResult)
    (h : bulkApplyLoop pol retryable retry backoff rounds
      (initMutator muts) rs bs = some res) :
    ((extractFinalFailures res.mutator).map FailedMutation.originalIndex).Nodup
    ∧ (∀ f ∈ extractFinalFailures res.mutator,
        f.originalIndex < muts.length)
    ∧ (∀ f ∈ extractFinalFailures res.mutator,
        f.originalIndex ∉ res.mutator.succeeded) := by
  have hperm := bulkApplyLoop_indices_perm pol retryable retry backoff
    rounds (initMutator muts) rs bs res h
  rw [entryIndices_initMutator] at hperm
  have hnd : (entryIndices res.mutator).Nodup :=
    hperm.nodup_iff.mpr (List.nodup_range' 0 muts.length)
  have hmem : ∀ f ∈ extractFinalFailures res.mutator,
      f.originalIndex ∈ res.mutator.pending.map PendingEntry.originalIndex ++
        res.mutator.failures.map FailedMutation.originalIndex := by
    intro f hf
    rcases List.mem_append.mp hf with hf1 | hf1
    · exact List.mem_append.mpr (Or.inr (List.mem_map_of_mem _ hf1))
    · obtain ⟨e, he, rfl⟩ := List.mem_map.mp hf1
      exact List.mem_append.mpr (Or.inl (List.mem_map_of_mem _ he))
  refine ⟨?_, ?_, ?_⟩
  · have he : (extractFinalFailures res.mutator).map FailedMutation.originalIndex =
        res.mutator.failures.map FailedMutation.originalIndex ++
          res.mutator.pending.map PendingEntry.originalIndex := by
      simp only [extractFinalFailures, List.map_append, List.map_map]
      rfl
    rw [he]
    have hPF : (res.mutator.pending.map PendingEntry.originalIndex ++
        res.mutator.failures.map FailedMutation.originalIndex).Nodup :=
      List.Nodup.of_append_left hnd
    exact List.nodup_append_comm.mp hPF
  · intro f hf
    have h2 : f.originalIndex ∈ entryIndices res.mutator :=
      List.mem_append.mpr (Or.inl (hmem f hf))
    have h3 := List.mem_range'_1.mp (hperm.mem_iff.mp h2)
    omega
  · intro f hf hs
    exact List.disjoint_of_nodup_append hnd (hmem f hf) hs

/-- A two-entry bulk mutation used to exercise BulkApply concretely. -/
def demoMuts : List SingleRowMutation :=
  [⟨"a", [Mutation.deleteFromRow]⟩, ⟨"b", [Mutation.deleteFromRow]⟩]

/-- Witness for C4: a concrete run where entry 0 succeeds and entry 1
fails permanently (INTERNAL, not retryable): the final failure list has
nodup indices. -/
theorem bulkapply_failure_list_index_invariants_witness :
    ((extractFinalFailures
        (⟨[], [⟨1, ⟨13⟩⟩], [0]⟩ : MutatorState)).map
      FailedMutation.originalIndex).Nodup :=
  (bulkapply_failure_list_index_invariants (fun _ => true)
      (fun st => st.code == 14) alwaysRetry constantBackoff demoMuts
      [RoundOutcome.perEntry [⟨0⟩, ⟨13⟩]] () ()
      ⟨⟨[], [⟨1, ⟨13⟩⟩], [0]⟩, [⟨0⟩], [⟨0⟩], false⟩ rfl).1

/-- A concrete row for exercising ReadRow. -/
def demoRow : Row := ⟨"r1", []⟩

/-- C3: Table::ReadRow issues a scan of exactly the requested row key
limited to 1 row, and over what the underlying reader yields: zero rows
gives (found=false, empty row); exactly one row gives (found=true, that
row); a second element after the first row gives the internal-error status
and no row. -/
theorem readrow_cardinality {ρ β : Type} (t : TableImpl ρ β) (key : String)
    (yields : List (StatusOr Row)) :
    (t.ReadRow key yields).1.rowsLimit = 1
    ∧ (t.ReadRow key yields).1.rowSet = [key]
    ∧ (yields = [] →
        (t.ReadRow key yields).1.result = .ok (false, emptyRow))
    ∧ (∀ r, yields = [StatusOr.ok r] →
        (t.ReadRow key yields).1.result = .ok (true, r))
    ∧ (∀ r y rest, yields = StatusOr.ok r :: y :: rest →
        (t.ReadRow key yields).1.result = .error readRowInternalError
        ∧ readRowInternalError.code = internalCode) := by
  refine ⟨rfl, rfl, ?_, ?_, ?_⟩
  · intro h
    subst h
    rfl
  · intro r h
    subst h
    rfl
  · intro r y rest h
    subst h
    exact ⟨rfl, rfl⟩

/-- Witness for C3: a reader yielding two rows for the single-row request
makes ReadRow return the internal protocol-violation error. -/
theorem readrow_cardinality_witness :
    (TableImpl.ReadRow demoTable "k"
        [StatusOr.ok demoRow, StatusOr.ok demoRow]).1.result =
      StatusOr.error readRowInternalError :=
  ((readrow_cardinality demoTable "k"
      [StatusOr.ok demoRow, StatusOr.ok demoRow]).2.2.2.2
    demoRow (StatusOr.ok demoRow) [] rfl).1

/-- C9: Apply, BulkApply and ReadRows operate only on clones of the table's
policies taken at the start of the operation: the RowReader captures clones
of the stored retry and backoff policies, and each of the three operations
leaves the policy instances stored in the Table unchanged. -/
theorem table_policies_unchanged {ρ β : Type} (t : TableImpl ρ β)
    (retry : RetryPolicy ρ) (backoff : BackoffPolicy β)
    (srm : SingleRowMutation) (outcome : Nat → GrpcStatus) (fuel : Nat)
    (retryable : GrpcStatus → Bool) (muts : List SingleRowMutation)
    (rounds : List RoundOutcome) (rowSet : List String) (rowsLimit : Int) :
    (TableImpl.Apply t retry backoff srm outcome fuel).table = t
    ∧ (TableImpl.BulkApply t retry backoff retryable muts rounds).table = t
    ∧ (TableImpl.ReadRows t rowSet rowsLimit).2 = t
    ∧ (TableImpl.ReadRows t rowSet rowsLimit).1.retryPolicy =
        clonePolicy t.rpcRetryPolicy
    ∧ (TableImpl.ReadRows t rowSet rowsLimit).1.backoffPolicy =
        clonePolicy t.rpcBackoffPolicy :=
  ⟨rfl, rfl, rfl, rfl, rfl⟩

end Bigtable
